import Mathlib

/-
Verification development for the minirl terminal line-editing engine.

The line buffer, its edit primitives, the keymap trie, the geometry
calculator, the history manager, the completion protocol and the raw-mode
guard are shallowly embedded from src/minirl.c and src/key_binding.c.
Bytes are modelled as Nat, byte buffers as List Nat, C size_t arithmetic
as Nat with explicit reduction modulo 2^64 (and unsigned int modulo 2^32)
at the points where the C code performs wrapping unsigned subtraction.
Terminal I/O outcomes (write failures, the geometry-dependent choice of
the trivial append path) are abstracted as boolean oracles passed in as
arguments; they do not affect the buffer state.
-/

/-- Wrap bound of the C type size_t (64-bit). -/
def SIZE_T_MOD : Nat := 2 ^ 64

/-- Wrap bound of the C type unsigned int (32-bit). -/
def UINT_MOD : Nat := 2 ^ 32

/-- Editor line-buffer state: the byte sequence under edit, the cursor
offset pos, the logical length len, and the buffer capacity.  Mirrors the
fields of struct minirl_state together with its struct buffer
(src/private.h, src/minirl.c). -/
structure LineState where
  buf : List Nat
  pos : Nat
  len : Nat
  capacity : Nat
  deriving DecidableEq

/-- Modelled from the spec: buffer.c is not under src/.  The spec says the
buffer is grown geometrically when an insert would exceed capacity and
never shrunk, and that growth may fail (AllocationFailure).  The new
capacity doubles the old one and is at least capacity + amount + 1; an
allocation that would reach the size_t limit fails.  Returns none on
failure. -/
def buffer_grow (capacity amount : Nat) : Option Nat :=
  let newCap := max (2 * capacity) (capacity + amount + 1)
  if newCap < SIZE_T_MOD then some newCap else none

/-- Key-handler result flag: processing done (minirl.h). -/
def minirl_key_handler_done : Nat := 1

/-- Key-handler result flag: full refresh requested (minirl.h). -/
def minirl_key_handler_refresh : Nat := 2

/-- Key-handler result flag: error (minirl.h). -/
def minirl_key_handler_error : Nat := 4

/-- minirl_edit_insert from src/minirl.c.  growOk is the allocation
oracle for buffer_grow; trivialOracle abstracts the geometry condition
(previous_line_end row unchanged and column not at the terminal width)
that selects the trivial single-character write path, which is only
reachable with the cursor at the end of the line; ioFail abstracts a
failing terminal write on that path.  Returns the new state, the flags
the function sets, and the C return value (0, or -1 on write failure). -/
def minirl_edit_insert (growOk trivialOracle ioFail : Bool) (c : Nat)
    (s : LineState) : LineState × Nat × Int :=
  if s.len ≥ s.capacity then
    match (if growOk then buffer_grow s.capacity (s.len - s.capacity) else none) with
    | none => (s, 0, 0)
    | some newCap =>
        let s' : LineState :=
          { buf := s.buf.take s.pos ++ [c] ++ s.buf.drop s.pos
            pos := s.pos + 1
            len := s.len + 1
            capacity := newCap }
        if trivialOracle ∧ s.pos = s.len then
          (s', 0, if ioFail then -1 else 0)
        else
          (s', minirl_key_handler_refresh, 0)
  else
    let s' : LineState :=
      { buf := s.buf.take s.pos ++ [c] ++ s.buf.drop s.pos
        pos := s.pos + 1
        len := s.len + 1
        capacity := s.capacity }
    if trivialOracle ∧ s.pos = s.len then
      (s', 0, if ioFail then -1 else 0)
    else
      (s', minirl_key_handler_refresh, 0)

/-- default_handler from src/minirl.c: inserts the key at the cursor and
raises the error flag exactly when minirl_edit_insert returns nonzero.
Returns the new state and the flags word (initially 0 in minirl_edit). -/
def default_handler (growOk trivialOracle ioFail : Bool) (c : Nat)
    (s : LineState) : LineState × Nat :=
  let r := minirl_edit_insert growOk trivialOracle ioFail c s
  (r.1, if r.2.2 ≠ 0 then r.2.1 ||| minirl_key_handler_error else r.2.1)

/-- delete_char_right from src/minirl.c. -/
def delete_char_right (s : LineState) : LineState × Bool :=
  if s.len > 0 ∧ s.pos < s.len then
    ({ s with buf := s.buf.take s.pos ++ s.buf.drop (s.pos + 1)
              len := s.len - 1 }, true)
  else
    (s, false)

/-- delete_char_left from src/minirl.c. -/
def delete_char_left (s : LineState) : LineState × Bool :=
  if s.pos > 0 ∧ s.len > 0 then
    ({ s with buf := s.buf.take (s.pos - 1) ++ s.buf.drop s.pos
              pos := s.pos - 1
              len := s.len - 1 }, true)
  else
    (s, false)

/-- delete_whole_line from src/minirl.c. -/
def delete_whole_line (s : LineState) : LineState :=
  { s with buf := [], pos := 0, len := 0 }

/-- delete_from_cursor_to_eol from src/minirl.c. -/
def delete_from_cursor_to_eol (s : LineState) : LineState :=
  { s with buf := s.buf.take s.pos, len := s.pos }

/-- The leftward scan loops of minirl_edit_delete_prev_word: starting at
offset p, step left while the byte before the offset satisfies pred
(out-of-range reads yield 0, unreachable in well-formed states). -/
def scan_left (pred : Nat → Bool) (buf : List Nat) : Nat → Nat
  | 0 => 0
  | p + 1 => if pred (buf.getD p 0) then scan_left pred buf p else p + 1

/-- Whether a byte is the ASCII space compared against in
minirl_edit_delete_prev_word. -/
def is_space_byte (b : Nat) : Bool := b = 32

/-- Whether a byte is not the ASCII space. -/
def non_space_byte (b : Nat) : Bool := b ≠ 32

/-- minirl_edit_delete_prev_word from src/minirl.c: skip spaces left of
the cursor, then non-spaces, then remove the span between the final
offset and the original cursor. -/
def minirl_edit_delete_prev_word (s : LineState) : LineState :=
  let p1 := scan_left is_space_byte s.buf s.pos
  let p2 := scan_left non_space_byte s.buf p1
  { s with buf := s.buf.take p2 ++ s.buf.drop s.pos
           pos := p2
           len := s.len - (s.pos - p2) }

/-- swap_chars_at_cursor from src/minirl.c (the Ctrl-T transpose). -/
def swap_chars_at_cursor (s : LineState) : LineState × Bool :=
  if s.pos > 0 ∧ s.pos < s.len then
    let a := s.buf.getD (s.pos - 1) 0
    let b := s.buf.getD s.pos 0
    ({ s with buf := (s.buf.set (s.pos - 1) b).set s.pos a
              pos := if s.pos ≠ s.len - 1 then s.pos + 1 else s.pos }, true)
  else
    (s, false)

/-- move_cursor_right from src/minirl.c, verbatim including its return
value in the branch where the cursor is already at the end of the line. -/
def move_cursor_right (s : LineState) : LineState × Bool :=
  if s.pos ≠ s.len then ({ s with pos := s.pos + 1 }, true)
  else (s, true)

/-- move_cursor_left from src/minirl.c. -/
def move_cursor_left (s : LineState) : LineState × Bool :=
  if s.pos > 0 then ({ s with pos := s.pos - 1 }, true)
  else (s, false)

/-- move_cursor_home from src/minirl.c. -/
def move_cursor_home (s : LineState) : LineState × Bool :=
  if s.pos ≠ 0 then ({ s with pos := 0 }, true)
  else (s, false)

/-- move_cursor_end from src/minirl.c. -/
def move_cursor_end (s : LineState) : LineState × Bool :=
  if s.pos ≠ s.len then ({ s with pos := s.len }, true)
  else (s, false)

/-- minirl_delete_text from src/minirl.c.  The C code computes
unsigned delta = end - start (32-bit wrap of a size_t difference) and
then performs the size_t subtractions len -= delta and pos -= delta
without bounds checks; both wraps are modelled explicitly. -/
def minirl_delete_text (start stop : Nat) (s : LineState) : LineState :=
  if stop = start then s
  else
    let st := start % SIZE_T_MOD
    let en := stop % SIZE_T_MOD
    let delta := ((en + SIZE_T_MOD - st) % SIZE_T_MOD) % UINT_MOD
    let newLen := (s.len + SIZE_T_MOD - delta % SIZE_T_MOD) % SIZE_T_MOD
    let newPos :=
      if s.pos > stop then (s.pos + SIZE_T_MOD - delta % SIZE_T_MOD) % SIZE_T_MOD
      else if s.pos > start then start
      else s.pos
    { s with buf := s.buf.take st ++ s.buf.drop (st + delta)
             len := newLen
             pos := newPos }

/-- minirl_point_get from src/minirl.c. -/
def minirl_point_get (s : LineState) : Nat := s.pos

/-- minirl_point_set from src/minirl.c: stores the new point without any
bounds check. -/
def minirl_point_set (s : LineState) (new_point : Nat) : LineState :=
  { s with pos := new_point }

/-- Terminal mode state for the raw-mode guard: whether raw mode is
active, the attributes currently applied to the terminal, and the
snapshot taken before raw mode was entered (struct minirl_st fields
in_raw_mode and orig_termios, src/private.h). -/
structure TermModeState where
  in_raw_mode : Bool
  attrs : Nat
  orig_termios : Nat
  deriving DecidableEq

/-- disable_raw_mode from src/minirl.c: when raw mode is active, attempt
tcsetattr with the saved attributes (setOk is the syscall oracle); only
on success clear the in_raw_mode flag.  Otherwise do nothing. -/
def disable_raw_mode (setOk : Bool) (t : TermModeState) : TermModeState :=
  if t.in_raw_mode ∧ setOk then
    { t with attrs := t.orig_termios, in_raw_mode := false }
  else t

/-- Keymap trie node (struct minirl_keymap, src/key_binding.h): for every
byte value an optional bound handler and an optional child subtree.
Handlers are identified abstractly by Nat tags. -/
inductive Keymap : Type where
  | mk : (Nat → Option Nat) → (Nat → Option Keymap) → Keymap

/-- Bound handler at a byte of a keymap node. -/
def Keymap.handler : Keymap → Nat → Option Nat
  | Keymap.mk hs _, i => hs i

/-- Child subtree at a byte of a keymap node. -/
def Keymap.child : Keymap → Nat → Option Keymap
  | Keymap.mk _ cs, i => cs i

/-- The empty keymap node (minirl_keymap_new, src/key_binding.c:
calloc-zeroed, so no handlers and no children). -/
def Keymap.empty : Keymap := Keymap.mk (fun _ => none) (fun _ => none)

/-- The loop of minirl_bind_key_sequence (src/key_binding.c), with the
first byte split off: while bytes remain, descend into the child at the
current byte, creating an empty node when there is none; at the final
byte overwrite the handler, keeping any existing child subtree. -/
def bind_seq_from : Keymap → Nat → List Nat → Nat → Keymap
  | Keymap.mk hs cs, key, [], h =>
      Keymap.mk (fun i => if i = key then some h else hs i) cs
  | Keymap.mk hs cs, key, k2 :: rest, h =>
      let child := (cs key).getD Keymap.empty
      Keymap.mk hs
        (fun i => if i = key then some (bind_seq_from child k2 rest h) else cs i)

/-- minirl_bind_key_sequence from src/key_binding.c: an empty sequence is
rejected (the keymap is unchanged). -/
def minirl_bind_key_sequence (km : Keymap) (seq : List Nat) (h : Nat) : Keymap :=
  match seq with
  | [] => km
  | k :: rest => bind_seq_from km k rest h

/-- key_handler_lookup from src/minirl.c: with the first byte already
read, return the handler bound at the current node if there is one;
otherwise descend into the child subtree and read one further byte from
the pending byte source (an exhausted list models the 300 ms timeout or
end of input); report none when neither is possible. -/
def key_handler_lookup (km : Keymap) (c : Nat) (rest : List Nat) : Option Nat :=
  match km.handler c with
  | some h => some h
  | none =>
    match km.child c with
    | none => none
    | some km2 =>
      match rest with
      | [] => none
      | c2 :: rest2 => key_handler_lookup km2 c2 rest2

/-- The loop body of calculate_row_col (src/minirl.c): advance one
column per byte; when the column counter reaches the terminal width, or
the byte is a literal newline, start a new row at column 0. -/
def row_col_step (terminal_width : Nat) (rc : Nat × Nat) (ch : Nat) : Nat × Nat :=
  let col := rc.2 + 1
  if col = terminal_width ∨ ch = 10 then (rc.1 + 1, 0) else (rc.1, col)

/-- The loop of calculate_row_col (src/minirl.c): walk the line bytes
while the byte is not the NUL terminator and fewer than max_chars bytes
have been consumed. -/
def row_col_loop (terminal_width : Nat) : List Nat → Nat → Nat × Nat → Nat × Nat
  | [], _, rc => rc
  | _ :: _, 0, rc => rc
  | ch :: restLine, n + 1, rc =>
      if ch = 0 then rc
      else row_col_loop terminal_width restLine n (row_col_step terminal_width rc ch)

/-- calculate_row_col from src/minirl.c: the row and column start from
the layout of the prompt (assumed newline-free) and are advanced over at
most max_chars bytes of the line. -/
def calculate_row_col (terminal_width prompt_len : Nat) (line : List Nat)
    (max_chars : Nat) : Nat × Nat :=
  row_col_loop terminal_width line max_chars
    (prompt_len / terminal_width, prompt_len % terminal_width)

/-- Modelled from the spec for the refinement comparison with
calculate_row_col: locate lays out prompt_len columns followed by the
first up_to_offset buffer bytes, one column per byte, wrapping to a new
row when the column counter reaches the width or the byte is a literal
newline, and returns the resulting row and column. -/
def locate_spec (terminal_width prompt_len : Nat) (line : List Nat)
    (up_to_offset : Nat) : Nat × Nat :=
  (line.take up_to_offset).foldl (row_col_step terminal_width)
    (prompt_len / terminal_width, prompt_len % terminal_width)

/-- History state (struct minirl_st history fields, src/private.h):
the configured maximum length and the entries, oldest first, most
recent last. -/
structure History where
  max_len : Nat
  entries : List String
  deriving DecidableEq

/-- minirl_history_add from src/minirl.c: no-op when the maximum length
is 0 and when the line equals the most recent entry; otherwise, when the
history is at capacity, free the oldest entry and shift the rest down one
slot, then append a copy of the line.  Allocation failures (calloc and
strdup return NULL) make the C function a no-op returning 0; allocation
is modelled as succeeding. -/
def minirl_history_add (h : History) (line : String) : History :=
  if h.max_len = 0 then h
  else if h.entries.getLast? = some line then h
  else
    let entries1 :=
      if h.entries.length = h.max_len then h.entries.drop 1 else h.entries
    { h with entries := entries1 ++ [line] }

/-- remove_current_line_from_history from src/minirl.c: a no-op on an
empty history, otherwise the most recent entry is freed and the count
decremented. -/
def remove_current_line_from_history (es : List String) : List String :=
  if es.isEmpty then es else es.dropLast

/-- delete_handler from src/minirl.c: delete the character to the right
of the cursor, requesting a refresh when something was deleted. -/
def delete_handler (s : LineState) (flags : Nat) : LineState × Nat :=
  let r := delete_char_right s
  (r.1, if r.2 then flags ||| minirl_key_handler_refresh else flags)

/-- ctrl_d_handler from src/minirl.c: on a non-empty line behave as the
delete handler; on an empty line remove the current working entry from
history and raise the error flag, leaving the line untouched. -/
def ctrl_d_handler (s : LineState) (es : List String) (flags : Nat) :
    LineState × List String × Nat :=
  if s.len > 0 then
    let r := delete_handler s flags
    (r.1, es, r.2)
  else
    (s, remove_current_line_from_history es, flags ||| minirl_key_handler_error)

/-- The inner loop of the common-prefix computation in minirl_complete
(src/minirl.c): the number of consecutive initial positions, capped at
the bound, at which the two byte strings agree (reads past the end of a
string yield the NUL terminator 0). -/
def common_bounded : Nat → List Nat → List Nat → Nat
  | 0, _, _ => 0
  | n + 1, a, b =>
      if a.headD 0 = b.headD 0 then common_bounded n (a.drop 1) (b.drop 1) + 1
      else 0

/-- The common-prefix loop of minirl_complete (src/minirl.c): walk the
remaining candidates, narrowing the prefix length at each mismatch; the
flag records whether the narrowed prefix is itself a complete candidate
(the mismatching candidate ends exactly at the new length). -/
def scan_matches : List (List Nat) → List Nat → Nat → Bool → Nat × Bool
  | [], _, len, pfx => (len, pfx)
  | m :: ms, first, len, pfx =>
      let common := common_bounded len first m
      if len ≠ common then
        scan_matches ms first common (decide (m.getD common 0 = 0))
      else
        scan_matches ms first len pfx

/-- minirl_insert_text_len from src/minirl.c: insert the bytes one by one
at the cursor with minirl_edit_insert.  Buffer growth is taken to
succeed (the C loop ignores the insert return value), and the
terminal-path oracles do not affect the state. -/
def minirl_insert_text_len (text : List Nat) (s : LineState) : LineState :=
  text.foldl (fun st ch => (minirl_edit_insert true false false ch st).1) s

/-- minirl_complete from src/minirl.c, for a candidate list, the offset
where the completable token began, and the prefix-acceptance flag.
start and the saved cursor are the C type unsigned int, so the
subtractions end - start and len -= end - start wrap modulo 2^32.
Returns the new editor state, the C result, and whether the candidate
table was displayed (minirl_display_matches was called). -/
def minirl_complete (start : Nat) (cands : List (List Nat)) (allowPfx : Bool)
    (s : LineState) : LineState × Bool × Bool :=
  match cands with
  | [] => (s, false, false)
  | first :: restMatches =>
    let scan := scan_matches restMatches first first.length true
    let endPos := minirl_point_get s % UINT_MOD
    let start_from := (endPos + UINT_MOD - start % UINT_MOD) % UINT_MOD
    let len2 := (scan.1 + UINT_MOD - start_from % UINT_MOD) % UINT_MOD
    let s' := minirl_insert_text_len ((first.drop start_from).take len2) s
    if restMatches = [] then (s', true, false)
    else if scan.2 ∧ allowPfx then (s', true, false)
    else if len2 = 0 then (s', false, true)
    else (s', false, false)

/-- The edit primitives named by the specification invariant, as a single
alphabet of operations on the editor state.  An insert carries its byte
and the allocation oracle for the buffer growth it may attempt. -/
inductive EditOp : Type where
  | insert (c : Nat) (growOk : Bool)
  | deleteRight
  | deleteLeft
  | deleteRange (start stop : Nat)
  | deleteToEol
  | deleteWholeLine
  | deletePrevWord
  | transpose
  | moveHome
  | moveEnd
  | moveLeft
  | moveRight

/-- Apply one edit primitive to the editor state, dispatching to the
function embedded from src/minirl.c. -/
def edit_step (s : LineState) : EditOp → LineState
  | EditOp.insert c g => (minirl_edit_insert g false false c s).1
  | EditOp.deleteRight => (delete_char_right s).1
  | EditOp.deleteLeft => (delete_char_left s).1
  | EditOp.deleteRange a b => minirl_delete_text a b s
  | EditOp.deleteToEol => delete_from_cursor_to_eol s
  | EditOp.deleteWholeLine => delete_whole_line s
  | EditOp.deletePrevWord => minirl_edit_delete_prev_word s
  | EditOp.transpose => (swap_chars_at_cursor s).1
  | EditOp.moveHome => (move_cursor_home s).1
  | EditOp.moveEnd => (move_cursor_end s).1
  | EditOp.moveLeft => (move_cursor_left s).1
  | EditOp.moveRight => (move_cursor_right s).1

/-- Apply a sequence of edit primitives from left to right. -/
def edit_run (s : LineState) (ops : List EditOp) : LineState :=
  ops.foldl edit_step s

/-- The initial empty editor state of a readline call: minirl_edit
(src/minirl.c) zeroes pos and len, and minirl_raw initialises the line
buffer with buffer_init(&line_buf, 0); buffer.c is not under src/, so the
initial capacity is modelled from the spec as the requested 0. -/
def initial_state : LineState :=
  { buf := [], pos := 0, len := 0, capacity := 0 }

/-- Validity of one primitive application: a delete-range call must name
a well-ordered range inside the line, as the spec requires of byte
offsets; every other primitive is unconditionally valid. -/
def op_ok (s : LineState) : EditOp → Bool
  | EditOp.deleteRange a b => decide (a ≤ b ∧ b ≤ s.len)
  | _ => true

/-- Validity of a sequence of primitive applications, each judged in the
state it is applied to. -/
def seq_ok : LineState → List EditOp → Bool
  | _, [] => true
  | s, op :: rest => op_ok s op && seq_ok (edit_step s op) rest

/-- The byte string "color". -/
def color_bytes : List Nat := [99, 111, 108, 111, 114]

/-- The byte string "colour". -/
def colour_bytes : List Nat := [99, 111, 108, 111, 117]

/-- The keymap of the trie dispatch example: the sequences ESC O H and
ESC [ H bound to the distinct handlers 1 and 2 with
minirl_bind_key_sequence, as minirl_new binds them to home_handler and
related handlers (src/minirl.c). -/
def home_end_keymap : Keymap :=
  minirl_bind_key_sequence
    (minirl_bind_key_sequence Keymap.empty [27, 79, 72] 1) [27, 91, 72] 2

/-- Well-formedness of the editor state maintained by the edit
primitives: the cursor is within the line, the line fits the buffer, and
the capacity is a representable size_t value. -/
def good_state (s : LineState) : Prop :=
  s.pos ≤ s.len ∧ s.len ≤ s.capacity ∧ s.capacity < SIZE_T_MOD

theorem scan_left_le (pred : Nat → Bool) (buf : List Nat) :
    ∀ p, scan_left pred buf p ≤ p := by
  intro p
  induction p with
  | zero => exact Nat.le_refl 0
  | succ n ih =>
    unfold scan_left
    split
    · exact Nat.le_succ_of_le ih
    · exact Nat.le_refl _

theorem good_state_insert (g t i : Bool) (c : Nat) (s : LineState)
    (hs : good_state s) : good_state (minirl_edit_insert g t i c s).1 := by
  obtain ⟨h1, h2, h3⟩ := hs
  unfold minirl_edit_insert
  split
  · rename_i hge
    split
    · exact ⟨h1, h2, h3⟩
    · rename_i newCap heq
      have hcap : s.len + 1 ≤ newCap ∧ newCap < SIZE_T_MOD := by
        cases g with
        | false => simp at heq
        | true =>
          simp only [if_true, buffer_grow] at heq
          split_ifs at heq with hlt
          · simp only [Option.some.injEq] at heq
            omega
      split
      · refine ⟨?_, ?_, ?_⟩ <;> dsimp only <;> omega
      · refine ⟨?_, ?_, ?_⟩ <;> dsimp only <;> omega
  · rename_i hge
    split
    · refine ⟨?_, ?_, ?_⟩ <;> dsimp only <;> omega
    · refine ⟨?_, ?_, ?_⟩ <;> dsimp only <;> omega

theorem good_state_delete_text (a b : Nat) (s : LineState)
    (hs : good_state s) (hab : a ≤ b) (hb : b ≤ s.len) :
    good_state (minirl_delete_text a b s) := by
  obtain ⟨h1, h2, h3⟩ := hs
  unfold minirl_delete_text
  split
  · exact ⟨h1, h2, h3⟩
  · rename_i hba
    refine ⟨?_, ?_, ?_⟩ <;>
      dsimp only <;>
      simp only [SIZE_T_MOD, UINT_MOD] at * <;>
      first
      | omega
      | (split_ifs <;> omega)

theorem good_state_step (s : LineState) (op : EditOp)
    (hs : good_state s) (hok : op_ok s op = true) :
    good_state (edit_step s op) := by
  obtain ⟨h1, h2, h3⟩ := hs
  cases op with
  | insert c g => exact good_state_insert g false false c s ⟨h1, h2, h3⟩
  | deleteRight =>
    simp only [edit_step, delete_char_right]
    split_ifs with h <;> refine ⟨?_, ?_, ?_⟩ <;> dsimp only <;> omega
  | deleteLeft =>
    simp only [edit_step, delete_char_left]
    split_ifs with h <;> refine ⟨?_, ?_, ?_⟩ <;> dsimp only <;> omega
  | deleteRange a b =>
    simp only [op_ok, decide_eq_true_eq] at hok
    exact good_state_delete_text a b s ⟨h1, h2, h3⟩ hok.1 hok.2
  | deleteToEol =>
    simp only [edit_step, delete_from_cursor_to_eol]
    refine ⟨?_, ?_, ?_⟩ <;> dsimp only <;> omega
  | deleteWholeLine =>
    simp only [edit_step, delete_whole_line]
    refine ⟨?_, ?_, ?_⟩ <;> dsimp only <;> omega
  | deletePrevWord =>
    have hp1 := scan_left_le is_space_byte s.buf s.pos
    have hp2 := scan_left_le non_space_byte s.buf
      (scan_left is_space_byte s.buf s.pos)
    simp only [edit_step, minirl_edit_delete_prev_word]
    refine ⟨?_, ?_, ?_⟩ <;> dsimp only <;> omega
  | transpose =>
    simp only [edit_step, swap_chars_at_cursor]
    split_ifs with h h2a <;> refine ⟨?_, ?_, ?_⟩ <;> dsimp only <;> omega
  | moveHome =>
    simp only [edit_step, move_cursor_home]
    split_ifs with h <;> refine ⟨?_, ?_, ?_⟩ <;> dsimp only <;> omega
  | moveEnd =>
    simp only [edit_step, move_cursor_end]
    split_ifs with h <;> refine ⟨?_, ?_, ?_⟩ <;> dsimp only <;> omega
  | moveLeft =>
    simp only [edit_step, move_cursor_left]
    split_ifs with h <;> refine ⟨?_, ?_, ?_⟩ <;> dsimp only <;> omega
  | moveRight =>
    simp only [edit_step, move_cursor_right]
    split_ifs with h <;> refine ⟨?_, ?_, ?_⟩ <;> dsimp only <;> omega

theorem good_state_run :
    ∀ (ops : List EditOp) (s : LineState), good_state s →
      seq_ok s ops = true → ∀ n, good_state (edit_run s (ops.take n)) := by
  intro ops
  induction ops with
  | nil =>
    intro s hs _ n
    simpa [edit_run] using hs
  | cons op rest ih =>
    intro s hs hseq n
    simp only [seq_ok, Bool.and_eq_true] at hseq
    cases n with
    | zero => simpa [edit_run] using hs
    | succ m =>
      have hstep : good_state (edit_step s op) := good_state_step s op hs hseq.1
      have := ih (edit_step s op) hstep hseq.2 m
      simpa [edit_run, List.take_succ_cons, List.foldl_cons] using this

/-- C1 (counterexample): the invariant is not maintained for every
sequence of edit-primitive applications from the initial empty state:
the single delete-range application with start 0 and end 1 on the empty
line wraps len to 2^64 - 1 (minirl_delete_text performs the unsigned
subtraction len -= delta without bounds checks), violating
len <= capacity. -/
theorem delete_range_breaks_invariant :
    ¬ ((edit_run initial_state [EditOp.deleteRange 0 1]).len ≤
        (edit_run initial_state [EditOp.deleteRange 0 1]).capacity) := by
  decide

/-- C1 (amended): for every sequence of edit-primitive applications
(insert at cursor, delete right, delete left, delete range, delete to
end of line, delete whole line, delete previous word, transpose, cursor
motions) starting from the initial empty editor state, in which every
delete-range application satisfies start <= end <= len at its point of
application, the editor state satisfies 0 <= pos <= len <= capacity
after every operation (after every prefix of the sequence; 0 <= pos
holds because pos is a Nat, as size_t is unsigned). -/
theorem edit_ops_preserve_invariant (ops : List EditOp) (n : Nat)
    (h : seq_ok initial_state ops = true) :
    (edit_run initial_state (ops.take n)).pos ≤
        (edit_run initial_state (ops.take n)).len ∧
      (edit_run initial_state (ops.take n)).len ≤
        (edit_run initial_state (ops.take n)).capacity := by
  have hg : good_state initial_state :=
    ⟨Nat.le_refl 0, Nat.zero_le 0, by decide⟩
  obtain ⟨ha, hb, _⟩ := good_state_run ops initial_state hg h n
  exact ⟨ha, hb⟩

/-- C1 (witness): a concrete valid sequence of two inserts and one
in-range delete-range keeps the invariant after all three operations. -/
theorem edit_ops_preserve_invariant_witness :
    seq_ok initial_state
        [EditOp.insert 104 true, EditOp.insert 105 true,
          EditOp.deleteRange 0 1] = true ∧
      ((edit_run initial_state
            ([EditOp.insert 104 true, EditOp.insert 105 true,
              EditOp.deleteRange 0 1].take 3)).pos ≤
          (edit_run initial_state
            ([EditOp.insert 104 true, EditOp.insert 105 true,
              EditOp.deleteRange 0 1].take 3)).len ∧
        (edit_run initial_state
            ([EditOp.insert 104 true, EditOp.insert 105 true,
              EditOp.deleteRange 0 1].take 3)).len ≤
          (edit_run initial_state
            ([EditOp.insert 104 true, EditOp.insert 105 true,
              EditOp.deleteRange 0 1].take 3)).capacity) :=
  ⟨by decide,
    edit_ops_preserve_invariant
      [EditOp.insert 104 true, EditOp.insert 105 true,
        EditOp.deleteRange 0 1] 3 (by decide)⟩

/-- C2 (counterexample): on the full buffer of the initial state with
growth failing, the default handler inserting byte 97 leaves the state
unchanged and produces flags 0; in particular the error flag is not
raised, contradicting the claim that AllocationFailure is signalled to
the caller. -/
theorem insert_grow_failure_flag_counterexample :
    default_handler false false false 97
        { buf := [], pos := 0, len := 0, capacity := 0 } =
      ({ buf := [], pos := 0, len := 0, capacity := 0 }, 0) ∧
      (default_handler false false false 97
          { buf := [], pos := 0, len := 0, capacity := 0 }).2 &&&
        minirl_key_handler_error = 0 := by
  decide

/-- C2 (amended): for every editor state in which the line buffer is
full (len >= capacity) and growing the buffer fails, minirl_edit_insert
skips the insertion via its goto done path and returns 0, so
default_handler leaves the state unchanged and reports flags 0: no
error flag is raised for the keystroke and the caller observes no error
result. -/
theorem insert_grow_failure_silent (s : LineState) (c : Nat) (t i : Bool)
    (h : s.capacity ≤ s.len) :
    default_handler false t i c s = (s, 0) := by
  simp [default_handler, minirl_edit_insert, ge_iff_le, h]

/-- C2 (witness): the amended statement at a concrete full state. -/
theorem insert_grow_failure_silent_witness :
    default_handler false false false 98
        { buf := [107], pos := 1, len := 1, capacity := 1 } =
      ({ buf := [107], pos := 1, len := 1, capacity := 1 }, 0) :=
  insert_grow_failure_silent
    { buf := [107], pos := 1, len := 1, capacity := 1 } 98 false false
    (by decide)

/-- C3: the trie lookup returns the handler bound at the first node
along the path that has one, without consuming further bytes (the
pending byte source is arbitrary and untouched when the current node
has a handler); and with ESC O H bound to handler 1 and ESC [ H bound
to handler 2, feeding the bytes of ESC O H dispatches handler 1 and not
handler 2. -/
theorem key_lookup_first_handler_wins :
    (∀ (hs : Nat → Option Nat) (cs : Nat → Option Keymap) (c : Nat)
        (rest : List Nat) (hid : Nat),
        hs c = some hid →
        key_handler_lookup (Keymap.mk hs cs) c rest = some hid) ∧
      key_handler_lookup home_end_keymap 27 [79, 72] = some 1 ∧
      key_handler_lookup home_end_keymap 27 [79, 72] ≠ some 2 := by
  refine ⟨?_, ?_, ?_⟩
  · intro hs cs c rest hid hh
    unfold key_handler_lookup
    simp [Keymap.handler, hh]
  · rfl
  · decide

/-- C3 (witness): the immediate-return clause at a concrete keymap whose
node binds handler 9 at byte 5, with pending bytes left unread. -/
theorem key_lookup_first_handler_wins_witness :
    key_handler_lookup
        (Keymap.mk (fun i => if i = 5 then some 9 else none) (fun _ => none))
        5 [1, 2, 3] = some 9 :=
  key_lookup_first_handler_wins.1
    (fun i => if i = 5 then some 9 else none) (fun _ => none) 5 [1, 2, 3] 9
    (by simp)

theorem row_col_loop_eq_foldl (w : Nat) :
    ∀ (line : List Nat) (n : Nat) (rc : Nat × Nat), (∀ b ∈ line, b ≠ 0) →
      row_col_loop w line n rc = (line.take n).foldl (row_col_step w) rc := by
  intro line
  induction line with
  | nil => intro n rc _; simp [row_col_loop]
  | cons ch rest ih =>
    intro n rc hz
    cases n with
    | zero => simp [row_col_loop]
    | succ m =>
      have hch : ch ≠ 0 := hz ch (List.mem_cons_self ch rest)
      have hrest : ∀ b ∈ rest, b ≠ 0 := fun b hb => hz b (List.mem_cons_of_mem ch hb)
      simp only [row_col_loop, if_neg hch, List.take_succ_cons, List.foldl_cons]
      exact ih m (row_col_step w rc ch) hrest

/-- C4: on NUL-free buffer contents (the loop of calculate_row_col also
stops at a NUL terminator, which the logical buffer contents exclude)
the geometry function lays out prompt_len columns followed by the first
up_to_offset buffer bytes at one column per byte, starting a new row
whenever the column counter reaches the terminal width or the byte is a
literal newline; and locate(width 10, prompt_len 2, "0123456789", 10)
returns row 1, column 2. -/
theorem calculate_row_col_correct :
    (∀ (w pl : Nat) (line : List Nat) (n : Nat), (∀ b ∈ line, b ≠ 0) →
        calculate_row_col w pl line n = locate_spec w pl line n) ∧
      calculate_row_col 10 2 [48, 49, 50, 51, 52, 53, 54, 55, 56, 57] 10 =
        (1, 2) := by
  constructor
  · intro w pl line n hz
    unfold calculate_row_col locate_spec
    exact row_col_loop_eq_foldl w line n _ hz
  · decide

/-- C4 (witness): the refinement clause at a concrete NUL-free line. -/
theorem calculate_row_col_correct_witness :
    calculate_row_col 10 2 [48, 10, 49] 3 = locate_spec 10 2 [48, 10, 49] 3 :=
  calculate_row_col_correct.1 10 2 [48, 10, 49] 3 (by decide)

/-- C5 (counterexample): for the candidates color and colour with the
completable token starting at the cursor (start = pos = 0 on the empty
line), minirl_complete inserts the missing common prefix colo and
returns failure, but does not display the candidates: the displayed
component is false, because the table is rendered only when no new
bytes were inserted. -/
theorem complete_no_display_counterexample :
    (minirl_complete 0 [color_bytes, colour_bytes] false
        { buf := [], pos := 0, len := 0, capacity := 0 }).1.buf =
      [99, 111, 108, 111] ∧
      (minirl_complete 0 [color_bytes, colour_bytes] false
        { buf := [], pos := 0, len := 0, capacity := 0 }).2.1 = false ∧
      (minirl_complete 0 [color_bytes, colour_bytes] false
        { buf := [], pos := 0, len := 0, capacity := 0 }).2.2 = false := by
  decide

/-- C5 (amended): for the candidate list color, colour with the token
starting at the cursor position, the completion protocol inserts colo
(the longest common prefix not already present) and reports no single
winner (returns failure), without displaying the candidates on this
call; in general the candidate table is displayed only on a call that
inserts no new bytes, which leaves the editor state unchanged. -/
theorem complete_colo_inserted_no_display :
    minirl_complete 0 [color_bytes, colour_bytes] false
        { buf := [], pos := 0, len := 0, capacity := 0 } =
      ({ buf := [99, 111, 108, 111], pos := 4, len := 4, capacity := 4 },
        false, false) ∧
      ∀ (start : Nat) (cands : List (List Nat)) (ap : Bool) (s : LineState),
        (minirl_complete start cands ap s).2.2 = true →
        (minirl_complete start cands ap s).1 = s := by
  constructor
  · decide
  · intro start cands ap s hdisp
    cases cands with
    | nil => simp [minirl_complete] at hdisp
    | cons first restM =>
      simp only [minirl_complete] at hdisp ⊢
      split_ifs at hdisp ⊢ with h1 h2 h3
      dsimp only
      rw [h3]
      simp [minirl_insert_text_len]

/-- C5 (witness): with colo already inserted and the cursor after it,
the same completion call inserts nothing, displays the table, and the
displayed-only-without-insertion clause applies: the state is
unchanged. -/
theorem complete_display_leaves_state_witness :
    (minirl_complete 0 [color_bytes, colour_bytes] false
        { buf := [99, 111, 108, 111], pos := 4, len := 4, capacity := 4 }).1 =
      { buf := [99, 111, 108, 111], pos := 4, len := 4, capacity := 4 } :=
  complete_colo_inserted_no_display.2 0 [color_bytes, colour_bytes] false
    { buf := [99, 111, 108, 111], pos := 4, len := 4, capacity := 4 }
    (by decide)

/-- C6: history add is a no-op when the configured maximum length is 0
and when the line equals the most recent entry; otherwise it appends a
copy of the line, first evicting the oldest entry (shifting the rest
down one slot) when the history is at capacity; and adding a, a, b to
an empty history with the default maximum length 100 yields exactly the
entries a, b. -/
theorem history_add_correct :
    (∀ (h : History) (line : String), h.max_len = 0 →
        minirl_history_add h line = h) ∧
      (∀ (h : History) (line : String), h.entries.getLast? = some line →
        minirl_history_add h line = h) ∧
      (∀ (h : History) (line : String), h.max_len ≠ 0 →
        ¬ h.entries.getLast? = some line →
        (minirl_history_add h line).entries =
          (if h.entries.length = h.max_len then h.entries.drop 1
            else h.entries) ++ [line]) ∧
      (minirl_history_add (minirl_history_add
          (minirl_history_add { max_len := 100, entries := [] } "a") "a")
          "b").entries = ["a", "b"] := by
  refine ⟨?_, ?_, ?_, ?_⟩
  · intro h line hm
    simp [minirl_history_add, hm]
  · intro h line hl
    simp [minirl_history_add, hl]
  · intro h line hm hl
    simp [minirl_history_add, hm, hl]
  · decide

/-- C6 (witness): the append-with-eviction clause at a history of
maximum length 2 holding x, y: adding z drops x and appends z. -/
theorem history_add_correct_witness :
    (minirl_history_add { max_len := 2, entries := ["x", "y"] } "z").entries =
      ["y", "z"] := by
  exact history_add_correct.2.2.1 { max_len := 2, entries := ["x", "y"] } "z"
    (by decide) (by decide)

/-- C7: evaluating the code at the failing input: with the cursor at the
end of the line (the empty initial state, pos = len = 0), moving right
changes nothing yet move_cursor_right returns true, not the no-op
report false that the claim states (its sibling motions return false in
that situation, so the caller cannot skip the refresh). -/
theorem move_cursor_right_noop_returns_true :
    move_cursor_right { buf := [], pos := 0, len := 0, capacity := 0 } =
      ({ buf := [], pos := 0, len := 0, capacity := 0 }, true) := by
  decide

/-- C8: on a well-formed state, the Ctrl-D handler with a non-empty
line deletes the character to the right of the cursor (a no-op at end
of line), reports a refresh exactly when something was deleted, never
raises the error flag, and leaves history alone; with an empty line it
leaves the state unchanged, drops the most recent history entry, and
raises the error flag. -/
theorem ctrl_d_handler_correct (s : LineState) (es : List String)
    (hw : s.buf.length = s.len) :
    (0 < s.len →
      ctrl_d_handler s es 0 =
        ({ s with buf := s.buf.take s.pos ++ s.buf.drop (s.pos + 1)
                  len := if s.pos < s.len then s.len - 1 else s.len },
          es,
          if s.pos < s.len then minirl_key_handler_refresh else 0)) ∧
      (s.len = 0 →
        ctrl_d_handler s es 0 = (s, es.dropLast, minirl_key_handler_error)) := by
  constructor
  · intro hpos
    unfold ctrl_d_handler delete_handler delete_char_right
    rw [if_pos hpos]
    by_cases hlt : s.pos < s.len
    · rw [if_pos ⟨hpos, hlt⟩]
      simp [hlt, minirl_key_handler_refresh]
    · rw [if_neg (fun hcontra => hlt hcontra.2)]
      have hple : s.buf.length ≤ s.pos := by omega
      simp only [hlt, if_false, if_neg hlt]
      rw [List.take_of_length_le hple, List.drop_eq_nil_of_le (by omega),
        List.append_nil]
      simp
  · intro hzero
    unfold ctrl_d_handler remove_current_line_from_history
    rw [if_neg (by omega)]
    cases es with
    | nil => simp [minirl_key_handler_error]
    | cons a l => simp [List.isEmpty, minirl_key_handler_error]

/-- C8 (witness): the non-empty clause at a one-character line with the
cursor at its start: the character is deleted and a refresh is
reported. -/
theorem ctrl_d_handler_correct_witness :
    ctrl_d_handler { buf := [97], pos := 0, len := 1, capacity := 1 } ["w"] 0 =
      ({ buf := [], pos := 0, len := 0, capacity := 1 }, ["w"],
        minirl_key_handler_refresh) := by
  exact (ctrl_d_handler_correct
    { buf := [97], pos := 0, len := 1, capacity := 1 } ["w"] (by decide)).1
    (by decide)

/-- C9: disable_raw_mode is idempotent (calling it twice in succession
leaves the terminal-mode state identical to calling it once, for either
outcome of the underlying attribute-set call) and is a no-op whenever
raw mode is not active, in particular when it was never entered. -/
theorem disable_raw_mode_idempotent :
    (∀ (ok : Bool) (t : TermModeState),
        disable_raw_mode ok (disable_raw_mode ok t) = disable_raw_mode ok t) ∧
      (∀ (ok : Bool) (t : TermModeState), t.in_raw_mode = false →
        disable_raw_mode ok t = t) := by
  constructor
  · intro ok t
    cases hb : t.in_raw_mode <;> cases ok <;> simp [disable_raw_mode, hb]
  · intro ok t h
    simp [disable_raw_mode, h]

/-- C9 (witness): the never-entered clause at a concrete state with raw
mode inactive. -/
theorem disable_raw_mode_idempotent_witness :
    disable_raw_mode true
        { in_raw_mode := false, attrs := 5, orig_termios := 7 } =
      { in_raw_mode := false, attrs := 5, orig_termios := 7 } :=
  disable_raw_mode_idempotent.2 true
    { in_raw_mode := false, attrs := 5, orig_termios := 7 } rfl

/-- C10: the public cursor setter performs no bounds checking: for every
editor state and every value p, minirl_point_set stores p
unconditionally and minirl_point_get then returns p; at the concrete
one-character state, setting the point to 5 makes pos exceed len. -/
theorem point_set_unchecked :
    (∀ (s : LineState) (p : Nat),
        minirl_point_get (minirl_point_set s p) = p) ∧
      minirl_point_get (minirl_point_set
          { buf := [97], pos := 1, len := 1, capacity := 1 } 5) = 5 ∧
      ¬ ((minirl_point_set
            { buf := [97], pos := 1, len := 1, capacity := 1 } 5).pos ≤
          (minirl_point_set
            { buf := [97], pos := 1, len := 1, capacity := 1 } 5).len) := by
  exact ⟨fun s p => rfl, rfl, by decide⟩
